import Mathlib

/-
Verification of the admin API-token service
(src/packages/core/admin/server/services/api-token.js).

The JavaScript module is shallowly embedded below.  The persistence
collaborator (`strapi.query(...)`) is modelled as an explicit `Strapi`
state record holding the token and permission tables together with the
process configuration; each query call of the source becomes an explicit
state transformation.  The crypto collaborator (`crypto.createHmac`) is
an external library, so the HMAC primitive is a parameter of the
operations that use it; `crypto.randomBytes` likewise becomes a `secret`
parameter.  JavaScript `undefined` for an optional value is modelled by
`Option`; note that in JavaScript an empty array is truthy, which the
embedding renders as `Option.isSome` checks on present-but-empty lists.
-/

namespace ApiToken

/-- TokenType of the source: 'read-only' | 'full-access' | 'custom'. -/
inductive TokenType
  | readOnly
  | fullAccess
  | custom
deriving DecidableEq, Repr

/-- The errors thrown by the module.  The source throws plain `Error`
objects; constructors here are keyed by the throw site. -/
inductive ApiTokenError
  | invalidPermissions
  | missingPermissions
  | tokenNotFound
  | missingSalt
  | hmacKeyUndefined
deriving DecidableEq, Repr

/-- The error taxonomy of the specification groups every failure caused
by an absent or misconfigured salt as a ConfigurationError: both the
descriptive error of `checkSaltIsDefined` and the key error raised by
`crypto.createHmac` when the configured salt is `undefined`. -/
def isConfigurationError : ApiTokenError → Bool
  | .missingSalt => true
  | .hmacKeyUndefined => true
  | _ => false

/-- A stored `admin::api-token` row.  `accessKey` holds the digest
written at creation; `type` is `Option` because the source never
validates that `type` is supplied, and an absent key stays `undefined`
on the row.  `createdAt` is assigned by the persistence collaborator;
it is opaque to the module. -/
structure StoredToken where
  id : Nat
  name : String
  description : Option String
  type : Option TokenType
  accessKey : String
  createdAt : String
deriving DecidableEq, Repr

/-- A stored `admin::token-permission` row.  `action` is `Option`
because the update path can insert rows whose `action` is `undefined`
(see `update` below). -/
structure StoredPermission where
  id : Nat
  action : Option String
  token : Nat
deriving DecidableEq, Repr

/-- The attribute object passed to `create`/`update`.  A `none` field is
an absent key. -/
structure TokenAttributes where
  type : Option TokenType
  name : Option String
  description : Option String
  permissions : Option (List String)
deriving DecidableEq, Repr

/-- Process-wide configuration, `strapi.config`: an association list of
string keys to string values. -/
abbrev Config := List (String × String)

/-- strapi.config.get(key). -/
def configGet (cfg : Config) (key : String) : Option String :=
  (cfg.find? (fun kv => kv.fst = key)).map (fun kv => kv.snd)

/-- strapi.config.set(key, value). -/
def configSet (cfg : Config) (key value : String) : Config :=
  (key, value) :: cfg.filter (fun kv => kv.fst ≠ key)

/-- The state behind the persistence and configuration collaborators:
both tables, the ids the store will assign next, and the configuration. -/
structure Strapi where
  tokens : List StoredToken
  permissions : List StoredPermission
  nextTokenId : Nat
  nextPermissionId : Nat
  config : Config
deriving DecidableEq, Repr

/-- SELECT_FIELDS = ['id', 'name', 'description', 'type', 'createdAt']
together with POPULATE_FIELDS = ['permissions']: the projected shape
every query of the module returns.  There is no accessKey field. -/
structure PopulatedToken where
  id : Nat
  name : String
  description : Option String
  type : Option TokenType
  createdAt : String
  permissions : List StoredPermission
deriving DecidableEq, Repr

/-- The `create` result: the projected row spread together with the
plaintext `accessKey` (and, for custom tokens, the created permission
rows assigned over the populated ones). -/
structure CreatedToken where
  id : Nat
  name : String
  description : Option String
  type : Option TokenType
  createdAt : String
  permissions : List StoredPermission
  accessKey : String
deriving DecidableEq, Repr

/-- Projection of a stored row to SELECT_FIELDS with the permissions
relation populated. -/
def populateProject (perms : List StoredPermission) (t : StoredToken) : PopulatedToken :=
  { id := t.id, name := t.name, description := t.description, type := t.type,
    createdAt := t.createdAt,
    permissions := perms.filter (fun p => p.token = t.id) }

/-- JavaScript `a || b` on the optional type attribute
(`attributes.type || oldToken.type`): a present enum value is truthy. -/
def jsOr (a b : Option TokenType) : Option TokenType :=
  match a with
  | some t => some t
  | none => b

/-- assertCustomTokenPermissionsValidity (lines 35-45).  The first guard
is `attributes.type !== 'custom' && attributes.permissions` — a
truthiness test, so a present-but-empty permissions array triggers it;
the second is `attributes.type === 'custom' && !attributes.permissions`. -/
def assertCustomTokenPermissionsValidity
    (type : Option TokenType) (permissions : Option (List String)) :
    Except ApiTokenError Unit :=
  if type ≠ some TokenType.custom ∧ permissions.isSome then
    .error .invalidPermissions
  else if type = some TokenType.custom ∧ permissions.isNone then
    .error .missingPermissions
  else
    .ok ()

/-- hash (lines 67-72): `crypto.createHmac('sha512', salt).update(k).digest('hex')`,
with the salt read from configuration at call time.  `createHmac` is the
external crypto collaborator, passed as the `hmac` parameter; it throws
a key error when the configured salt is `undefined`. -/
def hash (hmac : String → String → String) (cfg : Config) (accessKey : String) :
    Except ApiTokenError String :=
  match configGet cfg "admin.apiToken.salt" with
  | none => .error .hmacKeyUndefined
  | some salt => .ok (hmac salt accessKey)

/-- JavaScript falsiness of an optional string: `undefined` and the
empty string are falsy. -/
def isFalsyStr : Option String → Bool
  | none => true
  | some s => s = ""

/-- checkSaltIsDefined (lines 115-130): when the configured salt is
falsy, fall back to the environment variable API_TOKEN_SALT (persisting
it into configuration) or throw the descriptive configuration error. -/
def checkSaltIsDefined (env : Option String) (cfg : Config) :
    Except ApiTokenError Config :=
  if isFalsyStr (configGet cfg "admin.apiToken.salt") then
    match env with
    | some v =>
      if v = "" then .error .missingSalt
      else .ok (configSet cfg "admin.apiToken.salt" v)
    | none => .error .missingSalt
  else
    .ok cfg

/-- lodash/fp `differenceBy iteratee arr values`: the elements of `arr`
whose iteratee value does not occur among the iteratee values of
`values` (SameValueZero comparison of the criteria).  The call sites use
the property iteratee 'action'; JavaScript property access is
heterogeneous, so the two sides carry their own criterion functions. -/
def differenceBy {α β γ : Type} [DecidableEq γ] (critA : α → γ) (critB : β → γ)
    (arr : List α) (values : List β) : List α :=
  arr.filter (fun a => !(values.any (fun b => critB b = critA a)))

/-- The property access `p.action` on a permission row. -/
def permActionProp (p : StoredPermission) : Option String :=
  p.action

/-- The property access `s.action` on a string: strings have no such
property, so it is `undefined`. -/
def stringActionProp (_s : String) : Option String :=
  none

/-- The `data: omit('permissions', attributes)` payload of the update
query applied to a row: a present key overwrites the column, an absent
key leaves it unchanged.  `accessKey` is never part of the payload. -/
def applyAttributes (t : StoredToken) (a : TokenAttributes) : StoredToken :=
  { t with
    name := a.name.getD t.name,
    description := match a.description with
      | some d => some d
      | none => t.description,
    type := jsOr a.type t.type }

/-- Insertion step of the collaborator's `orderBy: { name: 'ASC' }`. -/
def insertByName (t : StoredToken) : List StoredToken → List StoredToken
  | [] => [t]
  | u :: us => if u.name < t.name then u :: insertByName t us else t :: u :: us

/-- The collaborator's `orderBy: { name: 'ASC' }` ordering. -/
def sortByName (l : List StoredToken) : List StoredToken :=
  l.foldr insertByName []

/-- `strapi.query('admin::token-permission').createMany({ data })`:
insert one row per datum, assigning fresh ids. -/
def tokenPermissionCreateMany (st : Strapi) (data : List (Option String × Nat)) :
    List StoredPermission × Strapi :=
  let rows := data.enum.map
    (fun x => { id := st.nextPermissionId + x.fst, action := x.snd.fst, token := x.snd.snd })
  (rows,
   { st with permissions := st.permissions ++ rows,
             nextPermissionId := st.nextPermissionId + data.length })

/-- create (lines 83-110).  `secret` stands for the 128 random bytes of
`crypto.randomBytes(128).toString('hex')`; `hmac` for the crypto
collaborator.  Validation happens before any write; the stored row
carries `hash(secret)`, while the result spreads the projected row with
the plaintext secret, and for custom tokens the created permission rows. -/
def create (hmac : String → String → String) (secret : String) (st : Strapi)
    (attributes : TokenAttributes) : Except ApiTokenError (CreatedToken × Strapi) :=
  match assertCustomTokenPermissionsValidity attributes.type attributes.permissions with
  | .error e => .error e
  | .ok _ =>
    match hash hmac st.config secret with
    | .error e => .error e
    | .ok digest =>
      let row : StoredToken :=
        { id := st.nextTokenId, name := attributes.name.getD "",
          description := attributes.description, type := attributes.type,
          accessKey := digest, createdAt := "" }
      let st1 : Strapi :=
        { st with tokens := st.tokens ++ [row], nextTokenId := st.nextTokenId + 1 }
      let apiToken := populateProject st1.permissions row
      if attributes.type = some TokenType.custom then
        let created := tokenPermissionCreateMany st1
          ((attributes.permissions.getD []).map (fun action => (some action, row.id)))
        .ok ({ id := apiToken.id, name := apiToken.name,
               description := apiToken.description, type := apiToken.type,
               createdAt := apiToken.createdAt, permissions := created.fst,
               accessKey := secret }, created.snd)
      else
        .ok ({ id := apiToken.id, name := apiToken.name,
               description := apiToken.description, type := apiToken.type,
               createdAt := apiToken.createdAt, permissions := apiToken.permissions,
               accessKey := secret }, st1)

/-- update (lines 181-213).  Loads the row, validates against the
effective type, writes the attribute payload, and, when the resulting
type is custom, runs the differenceBy reconciliation: note that
`attributes.permissions` is a list of strings while `token.permissions`
is a list of rows, that `deleteMany` filters on `action` only, and that
the created data destructures `action` from a string. -/
def update (st : Strapi) (id : Nat) (attributes : TokenAttributes) :
    Except ApiTokenError (PopulatedToken × Strapi) :=
  match st.tokens.find? (fun t => t.id = id) with
  | none => .error .tokenNotFound
  | some oldToken =>
    match assertCustomTokenPermissionsValidity
        (jsOr attributes.type oldToken.type) attributes.permissions with
    | .error e => .error e
    | .ok _ =>
      let updated := applyAttributes oldToken attributes
      let st1 : Strapi :=
        { st with tokens := st.tokens.map (fun t => if t.id = id then updated else t) }
      let token := populateProject st1.permissions updated
      if token.type = some TokenType.custom then
        let desired := attributes.permissions.getD []
        let permissionsToDelete :=
          differenceBy permActionProp stringActionProp token.permissions desired
        let permissionsToCreate :=
          differenceBy stringActionProp permActionProp desired token.permissions
        let delActions := permissionsToDelete.map permActionProp
        let st2 : Strapi :=
          { st1 with permissions :=
              st1.permissions.filter (fun p => !(delActions.any (fun a => a = p.action))) }
        let created := tokenPermissionCreateMany st2
          (permissionsToCreate.map (fun s => (stringActionProp s, id)))
        let permissions := created.snd.permissions.filter (fun p => p.token = id)
        .ok ({ token with permissions := permissions }, created.snd)
      else
        let permissions := st1.permissions.filter (fun p => p.token = id)
        .ok ({ token with permissions := permissions }, st1)

/-- A key of the whereParams object of getBy, with its value. -/
inductive Criterion
  | id (v : Nat)
  | name (v : String)
  | description (v : String)
  | accessKey (v : String)
deriving DecidableEq, Repr

/-- Whether a stored row satisfies one criterion of the where object. -/
def matchesCriterion (t : StoredToken) : Criterion → Bool
  | .id v => t.id = v
  | .name v => t.name = v
  | .description v => t.description = some v
  | .accessKey v => t.accessKey = v

/-- getBy (lines 224-232): an empty whereParams object
(`Object.keys(whereParams).length === 0`) short-circuits to null;
otherwise findOne with the projection. -/
def getBy (st : Strapi) (whereParams : List Criterion) : Option PopulatedToken :=
  if whereParams.isEmpty then none
  else
    (st.tokens.find? (fun t => whereParams.all (fun c => matchesCriterion t c))).map
      (populateProject st.permissions)

/-- getById (lines 159-161). -/
def getById (st : Strapi) (id : Nat) : Option PopulatedToken :=
  getBy st [Criterion.id id]

/-- getByName (lines 168-170). -/
def getByName (st : Strapi) (name : String) : Option PopulatedToken :=
  getBy st [Criterion.name name]

/-- exists (lines 56-60): `!!(await getBy(whereParams))`.  Named
`existsBy` because `exists` is reserved in Lean. -/
def existsBy (st : Strapi) (whereParams : List Criterion) : Bool :=
  (getBy st whereParams).isSome

/-- The collaborator's `delete({ select, populate, where: { id } })`:
returns the deleted row's projection (null when no row matches) and
removes the row. -/
def apiTokenDelete (st : Strapi) (id : Nat) : Option PopulatedToken × Strapi :=
  match st.tokens.find? (fun t => t.id = id) with
  | none => (none, st)
  | some t =>
    (some (populateProject st.permissions t),
     { st with tokens := st.tokens.filter (fun u => u.id ≠ id) })

/-- revoke (lines 148-152): a single delete call, nothing else — no
existence check and no error of its own. -/
def revoke (st : Strapi) (id : Nat) :
    Except ApiTokenError (Option PopulatedToken × Strapi) :=
  .ok (apiTokenDelete st id)

/-- list (lines 135-141): findMany with the projection, ordered by name
ascending. -/
def list (st : Strapi) : List PopulatedToken :=
  (sortByName st.tokens).map (populateProject st.permissions)

/-- Whether an Except value is an error. -/
def isErr {α : Type} : Except ApiTokenError α → Bool
  | .error _ => true
  | .ok _ => false

/-! Frame for the secret-exposure hyperproperty: rewrite every stored
digest by a function `f`.  If no response depends on the stored digests,
every read is invariant under any injective rewriting (criteria that
mention `accessKey` are rewritten consistently). -/

/-- Rewrite the stored digest of one row. -/
def eraseKey (f : String → String) (t : StoredToken) : StoredToken :=
  { t with accessKey := f t.accessKey }

/-- Rewrite every stored digest of the store. -/
def mapAccessKeys (f : String → String) (st : Strapi) : Strapi :=
  { st with tokens := st.tokens.map (eraseKey f) }

/-- Rewrite the value of an accessKey criterion. -/
def mapCriterion (f : String → String) : Criterion → Criterion
  | .accessKey v => .accessKey (f v)
  | c => c

/-- Rewrite the accessKey values of a whereParams object. -/
def mapCriteria (f : String → String) (l : List Criterion) : List Criterion :=
  l.map (mapCriterion f)

/-! Concrete fixtures used by closed theorems. -/

/-- A configuration carrying the salt. -/
def cfg0 : Config := [("admin.apiToken.salt", "salt")]

/-- A stand-in for the external crypto collaborator, used only to
instantiate HMAC-parametric theorems at concrete inputs. -/
def concatHmac (key msg : String) : String := key ++ "/" ++ msg

/-- A stored custom token with id 1. -/
def tokenCustom1 : StoredToken :=
  { id := 1, name := "n", description := none, type := some TokenType.custom,
    accessKey := "h1", createdAt := "" }

/-- A stored custom token with id 2. -/
def tokenCustom2 : StoredToken :=
  { id := 2, name := "m", description := none, type := some TokenType.custom,
    accessKey := "h2", createdAt := "" }

/-- Permission row: action a of token 1. -/
def permA1 : StoredPermission := { id := 1, action := some "a", token := 1 }

/-- Permission row: action b of token 1. -/
def permB1 : StoredPermission := { id := 2, action := some "b", token := 1 }

/-- Permission row: action a of token 2. -/
def permA2 : StoredPermission := { id := 3, action := some "a", token := 2 }

/-- An empty store with a configured salt. -/
def stEmpty : Strapi :=
  { tokens := [], permissions := [], nextTokenId := 1, nextPermissionId := 1,
    config := cfg0 }

/-- Store of Scenario D: token 1 is custom and holds actions a and b. -/
def stC2 : Strapi :=
  { tokens := [tokenCustom1], permissions := [permA1, permB1],
    nextTokenId := 2, nextPermissionId := 3, config := cfg0 }

/-- The Scenario D update payload: desired actions b and c. -/
def attrsC2 : TokenAttributes :=
  { type := none, name := none, description := none, permissions := some ["b", "c"] }

/-- The store after the Scenario D update. -/
def stC2After : Strapi :=
  match update stC2 1 attrsC2 with
  | .ok x => x.snd
  | .error _ => stC2

/-- An update payload switching the type to read-only, permissions key
absent. -/
def attrsC3 : TokenAttributes :=
  { type := some TokenType.readOnly, name := none, description := none,
    permissions := none }

/-- The store after switching token 1 of stC2 to read-only. -/
def stC3After : Strapi :=
  match update stC2 1 attrsC3 with
  | .ok x => x.snd
  | .error _ => stC2

/-- The result row of switching token 1 of stC2 to read-only. -/
def tokC3After : PopulatedToken :=
  match update stC2 1 attrsC3 with
  | .ok x => x.fst
  | .error _ => populateProject [] tokenCustom1

/-- Store for the idempotence check: token 1 is custom and holds exactly
action a. -/
def stC4 : Strapi :=
  { tokens := [tokenCustom1], permissions := [permA1],
    nextTokenId := 2, nextPermissionId := 2, config := cfg0 }

/-- The idempotent update payload: desired actions equal to the stored
action set of token 1. -/
def attrsC4 : TokenAttributes :=
  { type := none, name := none, description := none, permissions := some ["a"] }

/-- The store after the supposedly idempotent update. -/
def stC4After : Strapi :=
  match update stC4 1 attrsC4 with
  | .ok x => x.snd
  | .error _ => stC4

/-- Store with two custom tokens sharing action name a. -/
def stC5 : Strapi :=
  { tokens := [tokenCustom1, tokenCustom2], permissions := [permA1, permA2],
    nextTokenId := 3, nextPermissionId := 4, config := cfg0 }

/-- Update payload for token 1 keeping its action set {a}. -/
def attrsC5 : TokenAttributes :=
  { type := none, name := none, description := none, permissions := some ["a"] }

/-- The store after updating token 1 of stC5. -/
def stC5After : Strapi :=
  match update stC5 1 attrsC5 with
  | .ok x => x.snd
  | .error _ => stC5

/-- Create payload: read-only token with a present-but-empty permissions
array. -/
def attrsReadOnlyEmptyPerms : TokenAttributes :=
  { type := some TokenType.readOnly, name := some "n", description := none,
    permissions := some [] }

/-- Create payload: custom token with a present-but-empty permissions
array. -/
def attrsCustomEmptyPerms : TokenAttributes :=
  { type := some TokenType.custom, name := some "n", description := none,
    permissions := some [] }

/-! Helper lemmas. -/

@[simp]
theorem eraseKey_id (f : String → String) (t : StoredToken) :
    (eraseKey f t).id = t.id := rfl

@[simp]
theorem eraseKey_name (f : String → String) (t : StoredToken) :
    (eraseKey f t).name = t.name := rfl

@[simp]
theorem eraseKey_type (f : String → String) (t : StoredToken) :
    (eraseKey f t).type = t.type := rfl

theorem populateProject_type (ps : List StoredPermission) (t : StoredToken) :
    (populateProject ps t).type = t.type := rfl

theorem applyAttributes_type (t : StoredToken) (a : TokenAttributes) :
    (applyAttributes t a).type = jsOr a.type t.type := rfl

theorem list_map_ext {α β : Type} (g h : α → β) (l : List α) (H : ∀ a, g a = h a) :
    l.map g = l.map h :=
  congrArg (fun k => l.map k) (funext H)

theorem find?_map_comm {α β : Type} (g : α → β) (p : β → Bool) (l : List α) :
    (l.map g).find? p = (l.find? (fun a => p (g a))).map g := by
  induction l with
  | nil => rfl
  | cons a l ih =>
    cases h : p (g a) with
    | true => simp [List.find?_cons, h]
    | false => simp [List.find?_cons, h, ih]

/-! Validation characterised. -/

theorem assert_validity_spec (ty : Option TokenType) (perms : Option (List String)) :
    (assertCustomTokenPermissionsValidity ty perms = .error .invalidPermissions ↔
      (ty ≠ some TokenType.custom ∧ perms.isSome = true))
  ∧ (assertCustomTokenPermissionsValidity ty perms = .error .missingPermissions ↔
      (ty = some TokenType.custom ∧ perms.isNone = true))
  ∧ (isErr (assertCustomTokenPermissionsValidity ty perms) = true ↔
      ((ty ≠ some TokenType.custom ∧ perms.isSome = true) ∨
       (ty = some TokenType.custom ∧ perms.isNone = true))) := by
  unfold assertCustomTokenPermissionsValidity
  split_ifs with h1 h2 <;> simp_all [isErr]

theorem create_error_iff {saltValue : String} (hmac : String → String → String)
    (secret : String) (st : Strapi) (attrs : TokenAttributes) (e : ApiTokenError)
    (hsalt : configGet st.config "admin.apiToken.salt" = some saltValue) :
    (create hmac secret st attrs = .error e ↔
      assertCustomTokenPermissionsValidity attrs.type attrs.permissions = .error e) := by
  unfold create
  cases h : assertCustomTokenPermissionsValidity attrs.type attrs.permissions with
  | error e2 => simp
  | ok u =>
    simp only []
    unfold hash
    simp only [hsalt]
    split <;> simp

theorem create_isErr_eq {saltValue : String} (hmac : String → String → String)
    (secret : String) (st : Strapi) (attrs : TokenAttributes)
    (hsalt : configGet st.config "admin.apiToken.salt" = some saltValue) :
    isErr (create hmac secret st attrs) =
      isErr (assertCustomTokenPermissionsValidity attrs.type attrs.permissions) := by
  unfold create
  cases h : assertCustomTokenPermissionsValidity attrs.type attrs.permissions with
  | error e2 =>
    simp only []
    rfl
  | ok u =>
    simp only []
    unfold hash
    simp only [hsalt]
    split <;> rfl

theorem update_error_iff (st : Strapi) (id : Nat) (attrs : TokenAttributes)
    (oldToken : StoredToken) (e : ApiTokenError)
    (hfound : st.tokens.find? (fun t => t.id = id) = some oldToken) :
    (update st id attrs = .error e ↔
      assertCustomTokenPermissionsValidity
        (jsOr attrs.type oldToken.type) attrs.permissions = .error e) := by
  unfold update
  simp only [hfound]
  cases h : assertCustomTokenPermissionsValidity
      (jsOr attrs.type oldToken.type) attrs.permissions with
  | error e2 => simp
  | ok u =>
    simp only []
    split <;> simp

theorem update_isErr_eq (st : Strapi) (id : Nat) (attrs : TokenAttributes)
    (oldToken : StoredToken)
    (hfound : st.tokens.find? (fun t => t.id = id) = some oldToken) :
    isErr (update st id attrs) =
      isErr (assertCustomTokenPermissionsValidity
        (jsOr attrs.type oldToken.type) attrs.permissions) := by
  unfold update
  simp only [hfound]
  cases h : assertCustomTokenPermissionsValidity
      (jsOr attrs.type oldToken.type) attrs.permissions with
  | error e2 =>
    simp only []
    rfl
  | ok u =>
    simp only []
    split <;> rfl

/-! Claim theorems. -/

/-- C1 counterexample: the claim predicts that a non-custom token with a
present-but-empty permissions list is accepted and that a custom token
with a present-but-empty permissions list is rejected.  The code does
the exact opposite, because the validation tests JavaScript truthiness
(presence) of `attributes.permissions`, and an empty array is truthy:
creating a read-only token with `permissions: []` throws the
invalid-permissions error, while creating a custom token with
`permissions: []` succeeds. -/
theorem c1_counterexample :
    create concatHmac "sec" stEmpty attrsReadOnlyEmptyPerms =
      .error .invalidPermissions
  ∧ isErr (create concatHmac "sec" stEmpty attrsCustomEmptyPerms) = false := by
  constructor
  · rfl
  · rfl

/-- C1 amended: with a configured salt (for create) and an existing row
(for update), create and update fail iff (type ≠ custom ∧ permissions
PRESENT) ∨ (type = custom ∧ permissions ABSENT) — presence of the key,
not emptiness of the list, is what is validated — raising the
invalid-permissions error in the first case and the missing-permissions
error in the second; update validates the effective type
`attributes.type || oldToken.type`. -/
theorem c1_presence_validation (hmac : String → String → String) (secret : String)
    (st : Strapi) (attrs : TokenAttributes) (id : Nat) (oldToken : StoredToken)
    (saltValue : String)
    (hsalt : configGet st.config "admin.apiToken.salt" = some saltValue)
    (hfound : st.tokens.find? (fun t => t.id = id) = some oldToken) :
    (create hmac secret st attrs = .error .invalidPermissions ↔
      (attrs.type ≠ some TokenType.custom ∧ attrs.permissions.isSome = true))
  ∧ (create hmac secret st attrs = .error .missingPermissions ↔
      (attrs.type = some TokenType.custom ∧ attrs.permissions.isNone = true))
  ∧ (isErr (create hmac secret st attrs) = true ↔
      ((attrs.type ≠ some TokenType.custom ∧ attrs.permissions.isSome = true) ∨
       (attrs.type = some TokenType.custom ∧ attrs.permissions.isNone = true)))
  ∧ (update st id attrs = .error .invalidPermissions ↔
      (jsOr attrs.type oldToken.type ≠ some TokenType.custom ∧
        attrs.permissions.isSome = true))
  ∧ (update st id attrs = .error .missingPermissions ↔
      (jsOr attrs.type oldToken.type = some TokenType.custom ∧
        attrs.permissions.isNone = true))
  ∧ (isErr (update st id attrs) = true ↔
      ((jsOr attrs.type oldToken.type ≠ some TokenType.custom ∧
         attrs.permissions.isSome = true) ∨
       (jsOr attrs.type oldToken.type = some TokenType.custom ∧
         attrs.permissions.isNone = true))) := by
  refine ⟨?_, ?_, ?_, ?_, ?_, ?_⟩
  · rw [create_error_iff hmac secret st attrs _ hsalt]
    exact (assert_validity_spec attrs.type attrs.permissions).1
  · rw [create_error_iff hmac secret st attrs _ hsalt]
    exact (assert_validity_spec attrs.type attrs.permissions).2.1
  · rw [create_isErr_eq hmac secret st attrs hsalt]
    exact (assert_validity_spec attrs.type attrs.permissions).2.2
  · rw [update_error_iff st id attrs oldToken _ hfound]
    exact (assert_validity_spec _ attrs.permissions).1
  · rw [update_error_iff st id attrs oldToken _ hfound]
    exact (assert_validity_spec _ attrs.permissions).2.1
  · rw [update_isErr_eq st id attrs oldToken hfound]
    exact (assert_validity_spec _ attrs.permissions).2.2

/-- C1 witness: the amended characterisation applied to the Scenario D
store, token 1 and the switch-to-read-only payload. -/
theorem c1_presence_validation_witness :
    configGet stC2.config "admin.apiToken.salt" = some "salt"
  ∧ stC2.tokens.find? (fun t => t.id = 1) = some tokenCustom1
  ∧ ((create concatHmac "sec" stC2 attrsC3 = .error .invalidPermissions ↔
       (attrsC3.type ≠ some TokenType.custom ∧ attrsC3.permissions.isSome = true))
   ∧ (create concatHmac "sec" stC2 attrsC3 = .error .missingPermissions ↔
       (attrsC3.type = some TokenType.custom ∧ attrsC3.permissions.isNone = true))
   ∧ (isErr (create concatHmac "sec" stC2 attrsC3) = true ↔
       ((attrsC3.type ≠ some TokenType.custom ∧ attrsC3.permissions.isSome = true) ∨
        (attrsC3.type = some TokenType.custom ∧ attrsC3.permissions.isNone = true)))
   ∧ (update stC2 1 attrsC3 = .error .invalidPermissions ↔
       (jsOr attrsC3.type tokenCustom1.type ≠ some TokenType.custom ∧
         attrsC3.permissions.isSome = true))
   ∧ (update stC2 1 attrsC3 = .error .missingPermissions ↔
       (jsOr attrsC3.type tokenCustom1.type = some TokenType.custom ∧
         attrsC3.permissions.isNone = true))
   ∧ (isErr (update stC2 1 attrsC3) = true ↔
       ((jsOr attrsC3.type tokenCustom1.type ≠ some TokenType.custom ∧
          attrsC3.permissions.isSome = true) ∨
        (jsOr attrsC3.type tokenCustom1.type = some TokenType.custom ∧
          attrsC3.permissions.isNone = true)))) :=
  ⟨by decide, by decide,
   c1_presence_validation concatHmac "sec" stC2 attrsC3 1 tokenCustom1 "salt"
     (by decide) (by decide)⟩

/-- C2: evaluating update at Scenario D (stored actions a and b of
token 1, desired list ['b','c']).  The claim says only action a is
deleted, only c is created and the final set is {b,c}.  The code's
differenceBy calls compare the `action` property of permission rows with
the `action` property of plain strings, which is `undefined`, so nothing
ever matches: both stored rows land in toDelete, both desired strings
land in toCreate, and the created rows destructure `action` from a
string, storing `undefined` — the final stored actions are
[undefined, undefined]. -/
theorem c2_reconciliation_code_eval :
    isErr (update stC2 1 attrsC2) = false
  ∧ differenceBy permActionProp stringActionProp [permA1, permB1] ["b", "c"] =
      [permA1, permB1]
  ∧ differenceBy stringActionProp permActionProp ["b", "c"] [permA1, permB1] =
      ["b", "c"]
  ∧ stC2After.permissions.map StoredPermission.action = [none, none] := by
  refine ⟨by decide, by decide, by decide, by decide⟩

/-- C3 counterexample: token 1 of stC2 is custom and holds two
permission rows; updating it to read-only succeeds, yet both rows are
still stored afterwards and the token's stored type is read-only — a
non-custom token left holding permissions, which the claim rules out. -/
theorem c3_counterexample :
    isErr (update stC2 1 attrsC3) = false
  ∧ stC3After.permissions = [permA1, permB1]
  ∧ (stC3After.tokens.find? (fun t => t.id = 1)).map StoredToken.type =
      some (some TokenType.readOnly)
  ∧ tokC3After.type = some TokenType.readOnly
  ∧ tokC3After.permissions = [permA1, permB1] := by
  refine ⟨by decide, by decide, by decide, by decide, by decide⟩

/-- C3 amended: validation on update checks only the supplied
attributes, so switching a custom token's type to a non-custom type with
no permissions key passes, and no cascade happens — every successful
update whose payload has no permissions key leaves the permission table
exactly as it was, so the old rows survive under the now non-custom
token. -/
theorem c3_no_cascade_on_type_change (st : Strapi) (id : Nat)
    (attrs : TokenAttributes) (tok : PopulatedToken) (st2 : Strapi)
    (hperm : attrs.permissions = none)
    (hok : update st id attrs = .ok (tok, st2)) :
    st2.permissions = st.permissions := by
  unfold update at hok
  cases hfind : st.tokens.find? (fun t => t.id = id) with
  | none =>
    simp only [hfind] at hok
    exact absurd hok (by simp)
  | some oldToken =>
    simp only [hfind] at hok
    cases hassert : assertCustomTokenPermissionsValidity
        (jsOr attrs.type oldToken.type) attrs.permissions with
    | error e =>
      simp only [hassert] at hok
      exact absurd hok (by simp)
    | ok u =>
      simp only [hassert] at hok
      have hnc : jsOr attrs.type oldToken.type ≠ some TokenType.custom := by
        intro hcustom
        rw [assertCustomTokenPermissionsValidity, hperm, hcustom] at hassert
        simp at hassert
      simp only [populateProject_type, applyAttributes_type, if_neg hnc,
        Except.ok.injEq, Prod.mk.injEq] at hok
      rw [← hok.2]

/-- C3 witness: the amended statement applied at the concrete
switch-to-read-only update of stC2. -/
theorem c3_no_cascade_on_type_change_witness :
    attrsC3.permissions = none
  ∧ update stC2 1 attrsC3 = .ok (tokC3After, stC3After)
  ∧ stC3After.permissions = stC2.permissions :=
  ⟨rfl, by rfl, c3_no_cascade_on_type_change stC2 1 attrsC3 tokC3After stC3After
    rfl (by rfl)⟩

/-- C4: the diff as performed inside update is not idempotent.  With
current permissions holding exactly action a and desired list ['a'],
toDelete is the whole current list and toCreate is the whole desired
list (again because the `action` property of a string is `undefined`),
and running the update changes the stored permission rows (row a is
deleted and a row with an `undefined` action is created). -/
theorem c4_diff_not_idempotent_code_eval :
    differenceBy permActionProp stringActionProp [permA1] ["a"] = [permA1]
  ∧ differenceBy stringActionProp permActionProp ["a"] [permA1] = ["a"]
  ∧ isErr (update stC4 1 attrsC4) = false
  ∧ stC4After.permissions ≠ stC4.permissions := by
  refine ⟨by decide, by decide, by decide, by decide⟩

/-- C5: the reconciliation is neither minimal nor frame-respecting.
Updating token 1 of stC5 with desired list ['a'] — identical to its
stored action set — puts action a both in toDelete (as the stored row)
and in toCreate (as the string), and the deleteMany call filters on
action only, so the row of token 2 that happens to share action name a
is deleted as well. -/
theorem c5_frame_violation_code_eval :
    isErr (update stC5 1 attrsC5) = false
  ∧ stC5.permissions.any (fun p => p.token = 2 ∧ p.action = some "a") = true
  ∧ stC5After.permissions.all (fun p => p.token ≠ 2) = true
  ∧ (differenceBy permActionProp stringActionProp [permA1] ["a"]).map
      StoredPermission.action = [some "a"]
  ∧ differenceBy stringActionProp permActionProp ["a"] [permA1] = ["a"] := by
  refine ⟨by decide, by decide, by decide, by decide, by decide⟩

/-- C7: hash fails exactly when no salt is configured under
admin.apiToken.salt — the HMAC construction then receives an undefined
key — and that failure belongs to the configuration-error class of the
specification's taxonomy. -/
theorem c7_hash_missing_salt (hmac : String → String → String) (cfg : Config)
    (secret : String) :
    (hash hmac cfg secret = .error .hmacKeyUndefined ↔
      configGet cfg "admin.apiToken.salt" = none)
  ∧ (isErr (hash hmac cfg secret) = true ↔
      configGet cfg "admin.apiToken.salt" = none)
  ∧ isConfigurationError ApiTokenError.hmacKeyUndefined = true := by
  unfold hash
  cases h : configGet cfg "admin.apiToken.salt" <;>
    simp [isErr, isConfigurationError]

/-- C8: hash is deterministic — with the HMAC primitive fixed, its
result depends on nothing but the configured salt and the secret, so two
evaluations against configurations agreeing on admin.apiToken.salt
return equal digests. -/
theorem c8_hash_deterministic (hmac : String → String → String)
    (cfgA cfgB : Config) (secret : String)
    (hsalt : configGet cfgA "admin.apiToken.salt" =
      configGet cfgB "admin.apiToken.salt") :
    hash hmac cfgA secret = hash hmac cfgB secret := by
  unfold hash
  rw [hsalt]

/-- C8 witness: determinism applied at the fixture configuration. -/
theorem c8_hash_deterministic_witness :
    configGet cfg0 "admin.apiToken.salt" = configGet cfg0 "admin.apiToken.salt"
  ∧ hash concatHmac cfg0 "sec" = hash concatHmac cfg0 "sec" :=
  ⟨rfl, c8_hash_deterministic concatHmac cfg0 cfg0 "sec" rfl⟩

/-- C9: getBy with an empty whereParams object returns null on every
store, exists of empty criteria is false, and exists is exactly the
defined-ness of getBy. -/
theorem c9_getBy_empty_criteria (st : Strapi) (whereParams : List Criterion) :
    getBy st [] = none
  ∧ existsBy st [] = false
  ∧ existsBy st whereParams = (getBy st whereParams).isSome :=
  ⟨rfl, rfl, rfl⟩

/-- C10: revoke is exactly one delete call to the persistence
collaborator — it returns whatever delete returns, wrapped in success,
and when no row has the id it resolves to null with the store untouched
instead of raising any not-found error. -/
theorem c10_revoke_delegates (st : Strapi) (id : Nat) :
    revoke st id = .ok (apiTokenDelete st id)
  ∧ (st.tokens.find? (fun t => t.id = id) = none →
      revoke st id = .ok (none, st)) := by
  constructor
  · rfl
  · intro h
    unfold revoke apiTokenDelete
    rw [h]

/-- C10 witness: revoking an id absent from the empty store resolves to
null and leaves the store unchanged. -/
theorem c10_revoke_delegates_witness :
    stEmpty.tokens.find? (fun t => t.id = 42) = none
  ∧ revoke stEmpty 42 = .ok (none, stEmpty) :=
  ⟨rfl, (c10_revoke_delegates stEmpty 42).2 rfl⟩


/-! Secret-exposure frame lemmas (C6). -/


theorem populateProject_eraseKey (f : String → String) (ps : List StoredPermission)
    (t : StoredToken) : populateProject ps (eraseKey f t) = populateProject ps t := rfl

theorem applyAttributes_eraseKey (f : String → String) (t : StoredToken)
    (a : TokenAttributes) :
    applyAttributes (eraseKey f t) a = eraseKey f (applyAttributes t a) := rfl

theorem matchesCriterion_eraseKey (f : String → String) (hf : Function.Injective f)
    (t : StoredToken) (c : Criterion) :
    matchesCriterion (eraseKey f t) (mapCriterion f c) = matchesCriterion t c := by
  cases c <;> simp [matchesCriterion, mapCriterion, eraseKey, hf.eq_iff]

theorem getBy_mapAccessKeys (f : String → String) (hf : Function.Injective f)
    (st : Strapi) (params : List Criterion) :
    getBy (mapAccessKeys f st) (mapCriteria f params) = getBy st params := by
  unfold getBy
  have hemp : (mapCriteria f params).isEmpty = params.isEmpty := by
    cases params <;> rfl
  rw [hemp]
  by_cases he : params.isEmpty
  · rw [if_pos he, if_pos he]
  · rw [if_neg he, if_neg he]
    have hfind : (mapAccessKeys f st).tokens.find?
        (fun t => (mapCriteria f params).all (fun c => matchesCriterion t c)) =
        (st.tokens.find? (fun t => params.all (fun c => matchesCriterion t c))).map
          (eraseKey f) := by
      rw [show (mapAccessKeys f st).tokens = st.tokens.map (eraseKey f) from rfl]
      rw [find?_map_comm]
      congr 1
      congr 1
      funext a
      unfold mapCriteria
      rw [List.all_map]
      exact congrArg _ (funext (fun c => matchesCriterion_eraseKey f hf a c))
    rw [hfind]
    cases st.tokens.find? (fun t => params.all (fun c => matchesCriterion t c)) <;> rfl


theorem insertByName_eraseKey (f : String → String) (t : StoredToken)
    (l : List StoredToken) :
    insertByName (eraseKey f t) (l.map (eraseKey f)) =
      (insertByName t l).map (eraseKey f) := by
  induction l with
  | nil => rfl
  | cons u us ih =>
    simp only [List.map_cons, insertByName, eraseKey_name]
    by_cases h : u.name < t.name
    · rw [if_pos h, if_pos h, List.map_cons, ih]
    · rw [if_neg h, if_neg h, List.map_cons, List.map_cons]

theorem sortByName_eraseKey (f : String → String) (l : List StoredToken) :
    sortByName (l.map (eraseKey f)) = (sortByName l).map (eraseKey f) := by
  induction l with
  | nil => rfl
  | cons a l ih =>
    show insertByName (eraseKey f a) (sortByName (l.map (eraseKey f))) =
      (insertByName a (sortByName l)).map (eraseKey f)
    rw [ih, insertByName_eraseKey]

theorem list_mapAccessKeys (f : String → String) (st : Strapi) :
    list (mapAccessKeys f st) = list st := by
  unfold list
  show (sortByName (st.tokens.map (eraseKey f))).map (populateProject st.permissions) = _
  rw [sortByName_eraseKey, List.map_map]
  exact list_map_ext _ _ _ (fun t => rfl)

theorem revoke_mapAccessKeys (f : String → String) (st : Strapi) (i : Nat) :
    (revoke (mapAccessKeys f st) i).map Prod.fst = (revoke st i).map Prod.fst := by
  unfold revoke apiTokenDelete
  rw [show (mapAccessKeys f st).tokens = st.tokens.map (eraseKey f) from rfl,
    find?_map_comm]
  simp only [eraseKey_id]
  cases st.tokens.find? (fun t => t.id = i) <;> rfl


theorem update_mapAccessKeys (f : String → String) (st : Strapi) (i : Nat)
    (attrs : TokenAttributes) :
    (update (mapAccessKeys f st) i attrs).map Prod.fst =
      (update st i attrs).map Prod.fst := by
  unfold update
  rw [show (mapAccessKeys f st).tokens = st.tokens.map (eraseKey f) from rfl,
    find?_map_comm]
  simp only [eraseKey_id]
  cases hfind : st.tokens.find? (fun t => t.id = i) with
  | none => rfl
  | some tok =>
    simp only [Option.map_some']
    simp only [applyAttributes_eraseKey, eraseKey_type]
    cases hassert : assertCustomTokenPermissionsValidity
        (jsOr attrs.type tok.type) attrs.permissions with
    | error e => rfl
    | ok u =>
      simp only []
      simp only [populateProject_type, applyAttributes_type, eraseKey_type]
      by_cases hc : jsOr attrs.type tok.type = some TokenType.custom
      · rw [if_pos hc, if_pos hc]
        rfl
      · rw [if_neg hc, if_neg hc]
        rfl


theorem create_hmac_independent (hm hm2 : String → String → String)
    (secret : String) (st : Strapi) (attrs : TokenAttributes) :
    (create hm secret st attrs).map Prod.fst =
      (create hm2 secret st attrs).map Prod.fst := by
  unfold create
  cases hassert : assertCustomTokenPermissionsValidity attrs.type attrs.permissions with
  | error e => rfl
  | ok u =>
    simp only []
    unfold hash
    cases hconf : configGet st.config "admin.apiToken.salt" with
    | none => rfl
    | some salt =>
      simp only []
      by_cases hc : attrs.type = some TokenType.custom
      · rw [if_pos hc, if_pos hc]
        rfl
      · rw [if_neg hc, if_neg hc]
        rfl

theorem create_plaintext (hm : String → String → String) (secret : String)
    (st : Strapi) (attrs : TokenAttributes) :
    ∀ x, create hm secret st attrs = .ok x → x.fst.accessKey = secret := by
  intro x
  unfold create
  cases hassert : assertCustomTokenPermissionsValidity attrs.type attrs.permissions with
  | error e => intro h; cases h
  | ok u =>
    simp only []
    unfold hash
    cases hconf : configGet st.config "admin.apiToken.salt" with
    | none => intro h; cases h
    | some salt =>
      simp only []
      by_cases hc : attrs.type = some TokenType.custom
      · rw [if_pos hc]
        intro h
        cases h
        rfl
      · rw [if_neg hc]
        intro h
        cases h
        rfl


theorem c6_secret_exposure (f : String → String) (hf : Function.Injective f)
    (st : Strapi) (whereParams : List Criterion) (i : Nat) (n : String)
    (attrs : TokenAttributes) (hm hm2 : String → String → String)
    (secret : String) :
    list (mapAccessKeys f st) = list st
  ∧ getById (mapAccessKeys f st) i = getById st i
  ∧ getByName (mapAccessKeys f st) n = getByName st n
  ∧ getBy (mapAccessKeys f st) (mapCriteria f whereParams) = getBy st whereParams
  ∧ (revoke (mapAccessKeys f st) i).map Prod.fst = (revoke st i).map Prod.fst
  ∧ (update (mapAccessKeys f st) i attrs).map Prod.fst =
      (update st i attrs).map Prod.fst
  ∧ (create hm secret st attrs).map Prod.fst = (create hm2 secret st attrs).map Prod.fst
  ∧ (match create hm secret st attrs with
     | .ok x => x.fst.accessKey = secret
     | .error _ => True) := by
  refine ⟨list_mapAccessKeys f st, ?_, ?_, getBy_mapAccessKeys f hf st whereParams,
    revoke_mapAccessKeys f st i, update_mapAccessKeys f st i attrs,
    create_hmac_independent hm hm2 secret st attrs, ?_⟩
  · exact getBy_mapAccessKeys f hf st [Criterion.id i]
  · exact getBy_mapAccessKeys f hf st [Criterion.name n]
  · cases hc : create hm secret st attrs with
    | ok x => exact create_plaintext hm secret st attrs x hc
    | error e => trivial

theorem c6_secret_exposure_witness :
    Function.Injective (fun s : String => s)
  ∧ (list (mapAccessKeys (fun s : String => s) stC5) = list stC5
   ∧ getById (mapAccessKeys (fun s : String => s) stC5) 1 = getById stC5 1
   ∧ getByName (mapAccessKeys (fun s : String => s) stC5) "n" = getByName stC5 "n"
   ∧ getBy (mapAccessKeys (fun s : String => s) stC5)
       (mapCriteria (fun s : String => s) [Criterion.accessKey "h1"]) =
       getBy stC5 [Criterion.accessKey "h1"]
   ∧ (revoke (mapAccessKeys (fun s : String => s) stC5) 1).map Prod.fst =
       (revoke stC5 1).map Prod.fst
   ∧ (update (mapAccessKeys (fun s : String => s) stC5) 1 attrsC5).map Prod.fst =
       (update stC5 1 attrsC5).map Prod.fst
   ∧ (create concatHmac "sec" stC5 attrsC5).map Prod.fst =
       (create concatHmac "sec" stC5 attrsC5).map Prod.fst
   ∧ (match create concatHmac "sec" stC5 attrsC5 with
      | .ok x => x.fst.accessKey = "sec"
      | .error _ => True)) :=
  ⟨fun _ _ h => h,
   c6_secret_exposure (fun s : String => s) (fun _ _ h => h) stC5
     [Criterion.accessKey "h1"] 1 "n" attrsC5 concatHmac concatHmac "sec"⟩

end ApiToken
